import Mathlib

/-!
Shallow embedding of `packages/postcss-linaria/src/stringify.ts`.

The file translates the TypeScript code into executable Lean definitions:
JS strings become `String`, JS string primitives (split, includes, `Number`
coercion, `||`, `??`, truthiness) are modelled over `List Char`, nodes become
structures, the `raws` bag becomes an association list from slot name to
captured text, and the root-owned expression table becomes an
`Option (List String)` (it is absent when the parser never attached one).
The generic postcss `Stringifier` that the class extends is an external
collaborator; its results (`super.raw`, `super.rawValue`, `super.comment`,
`this.body`, `super.document`) enter the definitions as parameters.
-/

namespace PostcssLinaria

/-- Modelled from the spec: the marker constants are exported by `util.ts`,
which is not among the sources at hand.  Spec §6 fixes the two marker
formats — full marker `<token>:<index>` (comment bodies, property names) and
a more compact short marker `<token><index>` embedded among space-delimited
text — and spec §9 requires the tokens to be reserved prefixes that never
occur in valid style-sheet text.  The concrete spelling below stands in for
the real reserved token. -/
def placeholderText : String := "pcss-lin"

/-- Modelled from the spec: the compact marker used inside declaration
values and rule selectors; see `placeholderText`. -/
def shortPlaceholderText : String := "pcss"

/-- JS `s.split(sep)` for a non-empty separator, over character lists.
Fuel-based recursion: every step consumes at least one character, so fuel
`l.length` suffices.  Matches JS semantics: leftmost, non-overlapping
occurrences; a leading, trailing or double separator contributes empty
pieces; a string without the separator yields the one-element list. -/
def jsSplitAux (sep : List Char) : Nat → List Char → List Char → List (List Char)
  | _, [], cur => [cur.reverse]
  | 0, rest, cur => [cur.reverse ++ rest]
  | fuel + 1, c :: rest, cur =>
    if sep.isPrefixOf (c :: rest) then
      cur.reverse :: jsSplitAux sep fuel ((c :: rest).drop sep.length) []
    else
      jsSplitAux sep fuel rest (c :: cur)

/-- JS `s.split(sep)` on strings (the separators used by the source are the
non-empty marker constants, a colon and a single space). -/
def jsSplit (s sep : String) : List String :=
  (jsSplitAux sep.data s.data.length s.data []).map String.mk

/-- Helper for `jsIncludes`: does `sub` occur in the list? -/
def jsIncludesAux (sub : List Char) : List Char → Bool
  | [] => sub.isEmpty
  | c :: rest => sub.isPrefixOf (c :: rest) || jsIncludesAux sub rest

/-- JS `s.includes(sub)`. -/
def jsIncludes (s sub : String) : Bool :=
  jsIncludesAux sub.data s.data

/-- Value of a non-empty all-digit character list, else `none`. -/
def digitsToNat? (l : List Char) : Option Nat :=
  if l.isEmpty then none
  else if l.all Char.isDigit then
    some (l.foldl (fun acc c => acc * 10 + (c.toNat - 48)) 0)
  else none

/-- The white-space and line-terminator characters stripped by JS `Number`
string coercion: TAB, LF, VT, FF, CR, SP, NBSP, OGHAM SP, the U+2000–200A
range, LS, PS, NNBSP, MMSP, IDEOGRAPHIC SP, and the BOM. -/
def isJsWhitespaceChar (c : Char) : Bool :=
  let n := c.toNat
  n == 0x9 || n == 0xA || n == 0xB || n == 0xC || n == 0xD || n == 0x20 ||
    n == 0xA0 || n == 0x1680 || (decide (0x2000 ≤ n) && decide (n ≤ 0x200A)) ||
    n == 0x2028 || n == 0x2029 || n == 0x202F || n == 0x205F || n == 0x3000 ||
    n == 0xFEFF

/-- Strip leading and trailing JS white space. -/
def trimJsWs (l : List Char) : List Char :=
  ((l.dropWhile isJsWhitespaceChar).reverse.dropWhile isJsWhitespaceChar).reverse

/-- Value of an ASCII decimal digit. -/
def decDigitVal? (c : Char) : Option Nat :=
  let n := c.toNat
  if 48 ≤ n ∧ n ≤ 57 then some (n - 48) else none

/-- Value of an ASCII hexadecimal digit (both cases). -/
def hexDigitVal? (c : Char) : Option Nat :=
  let n := c.toNat
  if 48 ≤ n ∧ n ≤ 57 then some (n - 48)
  else if 97 ≤ n ∧ n ≤ 102 then some (n - 87)
  else if 65 ≤ n ∧ n ≤ 70 then some (n - 55)
  else none

/-- Value of an ASCII octal digit. -/
def octDigitVal? (c : Char) : Option Nat :=
  let n := c.toNat
  if 48 ≤ n ∧ n ≤ 55 then some (n - 48) else none

/-- Value of an ASCII binary digit. -/
def binDigitVal? (c : Char) : Option Nat :=
  let n := c.toNat
  if n = 48 then some 0 else if n = 49 then some 1 else none

/-- Value of a non-empty digit sequence in the given base; `none` when the
sequence is empty or contains a non-digit. -/
def parseRadix (base : Nat) (digVal : Char → Option Nat) (ds : List Char) : Option Nat :=
  if ds.isEmpty then none
  else ds.foldl (fun acc c =>
    match acc, digVal c with
    | some a, some d => some (a * base + d)
    | _, _ => none) (some 0)

/-- A JS number as produced by string coercion: NaN, a signed infinity, or a
finite value `±M × 10^E` held exactly (sign, decimal mantissa, decimal
exponent) before IEEE-754 rounding. -/
inductive JsNumber
  | nan
  | infinite (neg : Bool)
  | finite (neg : Bool) (M : Nat) (E : Int)
  deriving DecidableEq

/-- Finish a `StrUnsignedDecimalLiteral` after its mantissa: accept the end
of input or an exponent part `(e|E) [+|-]? digits`, yielding the mantissa
value and the net decimal exponent. -/
def finishDecimal (mant : List Char) (fracLen : Nat) (rest : List Char) :
    Option (Nat × Int) :=
  match parseRadix 10 decDigitVal? mant, rest with
  | some M, [] => some (M, -(fracLen : Int))
  | some M, c :: rest2 =>
    if c = 'e' ∨ c = 'E' then
      let se : Bool × List Char :=
        match rest2 with
        | '+' :: r => (false, r)
        | '-' :: r => (true, r)
        | r => (false, r)
      match parseRadix 10 decDigitVal? se.2 with
      | some ev => some (M, (if se.1 then -(ev : Int) else (ev : Int)) - (fracLen : Int))
      | none => none
    else none
  | none, _ => none

/-- Parse a `StrUnsignedDecimalLiteral`: `digits [. digits?] [exp]`,
`. digits [exp]` — at least one digit on some side of the point, nothing
left over. -/
def parseUnsignedDecimal (l : List Char) : Option (Nat × Int) :=
  let d1 := l.takeWhile Char.isDigit
  let rest1 := l.dropWhile Char.isDigit
  match rest1 with
  | '.' :: rest2 =>
    let d2 := rest2.takeWhile Char.isDigit
    let rest3 := rest2.dropWhile Char.isDigit
    if d1.isEmpty ∧ d2.isEmpty then none
    else finishDecimal (d1 ++ d2) d2.length rest3
  | _ =>
    if d1.isEmpty then none
    else finishDecimal d1 0 rest1

/-- A `NonDecimalIntegerLiteral` (`0x`, `0o`, `0b` body): its digits as an
exact finite value, or NaN. -/
def radixNumber (base : Nat) (digVal : Char → Option Nat) (ds : List Char) : JsNumber :=
  match parseRadix base digVal ds with
  | some v => JsNumber.finite false v 0
  | none => JsNumber.nan

/-- JS `Number(string)` on the string's characters, per the
`StringNumericLiteral` grammar: trim white space; empty means 0; a `0x`/
`0o`/`0b` literal (no sign) or an optionally signed decimal literal or
`Infinity`; anything else is NaN. -/
def jsStringToNumber (l : List Char) : JsNumber :=
  let t := trimJsWs l
  if t.isEmpty then JsNumber.finite false 0 0
  else
    match t with
    | '0' :: 'x' :: rest => radixNumber 16 hexDigitVal? rest
    | '0' :: 'X' :: rest => radixNumber 16 hexDigitVal? rest
    | '0' :: 'o' :: rest => radixNumber 8 octDigitVal? rest
    | '0' :: 'O' :: rest => radixNumber 8 octDigitVal? rest
    | '0' :: 'b' :: rest => radixNumber 2 binDigitVal? rest
    | '0' :: 'B' :: rest => radixNumber 2 binDigitVal? rest
    | _ =>
      let su : Bool × List Char :=
        match t with
        | '+' :: r => (false, r)
        | '-' :: r => (true, r)
        | r => (false, r)
      if su.2 = ['I', 'n', 'f', 'i', 'n', 'i', 't', 'y'] then JsNumber.infinite su.1
      else
        match parseUnsignedDecimal su.2 with
        | some (M, E) => JsNumber.finite su.1 M E
        | none => JsNumber.nan

/-- Bit length of a natural number (fuel-based so the kernel can run it). -/
def bitLenAux : Nat → Nat → Nat
  | 0, _ => 0
  | fuel + 1, n => if n = 0 then 0 else bitLenAux fuel (n / 2) + 1

/-- Number of binary digits of `n` (0 for 0). -/
def bitLen (n : Nat) : Nat := bitLenAux n n

/-- Decides `B × 2^e ≤ A` for an integer exponent `e`. -/
def pow2LE (B A : Nat) (e : Int) : Bool :=
  match e with
  | Int.ofNat k => decide (B * 2 ^ k ≤ A)
  | Int.negSucc k => decide (B ≤ A * 2 ^ (k + 1))

/-- Round `N / D` to the nearest natural, ties to even (`D ≠ 0` at every
use). -/
def roundHalfEven (N D : Nat) : Nat :=
  let q := N / D
  let r := N % D
  if 2 * r < D then q
  else if D < 2 * r then q + 1
  else if q % 2 = 0 then q else q + 1

/-- The table-lookup index determined by a JS number: `some n` when the
IEEE-754 double the number rounds to is a non-negative integer `n` (`-0`
counts as index 0, and underflow to `±0` gives index 0) — the lookup
`expressions[n]` then hits index `n` whenever `n` is inside the table,
while for `n` at or beyond its length both JS (an absent property) and the
model (an out-of-range index) find no entry; `none` when the number is NaN
(the code's `isNaN` guard), infinite, negative, or rounds to a fractional
double, where the JS lookup also finds no entry.  The rounding follows
binary64 round-to-nearest, ties-to-even, carried out exactly over the
integers: find the floor `e` of the base-2 logarithm of `M × 10^E` via bit
lengths, round the significand at 52 bits after the point (at `2^-1074`
for subnormals), and send overflow past `2^1024` to infinity.  The two
early guards are exact: `10^E ≥ 10^1025 > 2^1024` always overflows, and
`M × 10^E < 2^(bitLen M) × 10^(-1075 - bitLen M) < 2^-1075` always
underflows to zero. -/
def jsIndexOfNumber : JsNumber → Option Nat
  | JsNumber.nan => none
  | JsNumber.infinite _ => none
  | JsNumber.finite neg M E =>
    if M = 0 then some 0
    else if (1025 : Int) ≤ E then none
    else if E ≤ -((1075 : Int) + (bitLen M : Int)) then some 0
    else
      let A := if (0 : Int) ≤ E then M * 10 ^ E.toNat else M
      let B := if (0 : Int) ≤ E then 1 else 10 ^ (-E).toNat
      let e0 : Int := (bitLen A : Int) - (bitLen B : Int)
      let e : Int := if pow2LE B A e0 then e0 else e0 - 1
      if (1024 : Int) ≤ e then none
      else
        let k : Int := if e < (-1022 : Int) then (-1074 : Int) else e - 52
        let q := if (0 : Int) ≤ k
          then roundHalfEven A (B * 2 ^ k.toNat)
          else roundHalfEven (A * 2 ^ (-k).toNat) B
        if q = 0 then some 0
        else if neg then none
        else if (0 : Int) ≤ k then
          if 2 ^ 1024 ≤ q * 2 ^ k.toNat then none else some (q * 2 ^ k.toNat)
        else
          if q % 2 ^ (-k).toNat = 0 then some (q / 2 ^ (-k).toNat) else none

/-- JS `Number(x)` coerced to the array-lookup index, on the optional string
produced by destructuring a split: `Number(undefined)` is NaN (no lookup,
the code's `isNaN` guard), and a string goes through the full string
numeric grammar and binary64 rounding of `jsStringToNumber` and
`jsIndexOfNumber` — so `""` gives index 0, `"0e1"` and `"0."` give 0,
`"0x1"` gives 1, `"1.0"` gives 1, `"-0"` gives 0, `"1e-400"` underflows to
0, while `"1.5"`, `"-3"`, `"Infinity"` or trailing junk give no index. -/
def jsNumberIndex? : Option String → Option Nat
  | none => none
  | some s => jsIndexOfNumber (jsStringToNumber s.data)

/-- JS `Array.prototype.join(sep)`. -/
def jsJoin (sep : String) : List String → String
  | [] => ""
  | [x] => x
  | x :: xs => x ++ sep ++ jsJoin sep xs

/-- JS truthiness of an optional string: `undefined` and `""` are falsy. -/
def jsTruthy : Option String → Bool
  | some s => s != ""
  | none => false

/-- JS `a || b` on an optional string `a` and a string default `b`. -/
def jsOrDefault (a : Option String) (b : String) : String :=
  match a with
  | some s => if s = "" then b else s
  | none => b

/-- JS `a ?? b` on optional strings: only `undefined` falls through. -/
def jsNullish (a b : Option String) : Option String :=
  match a with
  | some s => some s
  | none => b

/-- A node's `raws` bag: slot name ↦ captured raw text. -/
abbrev Raws := List (String × String)

/-- Body of the `forEach` in `substitutePlaceholders` (stringify.ts 25–37):
`const [, expressionIndexString] = val.split(shortPlaceholderText)` takes
the piece after the first marker occurrence; `Number` turns it into an
index; the token is replaced only when the table is present and the looked
up entry is truthy (`if (expression)`), otherwise kept verbatim. -/
def substituteToken (expressions : Option (List String)) (val : String) : String :=
  let expressionIndexString := (jsSplit val shortPlaceholderText)[1]?
  let expressionIndex := jsNumberIndex? expressionIndexString
  match expressions, expressionIndex with
  | some exprs, some i =>
    match exprs[i]? with
    | some expression => if expression = "" then val else expression
    | none => val
  | _, _ => val

/-- stringify.ts 15–39.  The source returns early when the string does not
contain the short marker; otherwise it splits on single spaces, rewrites
each token and rejoins with single spaces. -/
def substitutePlaceholders (stringWithPlaceholders : String)
    (expressions : Option (List String)) : String :=
  if jsIncludes stringWithPlaceholders shortPlaceholderText = false then
    stringWithPlaceholders
  else
    jsJoin " " ((jsSplit stringWithPlaceholders " ").map (substituteToken expressions))

/-- The backtick character, written by code point to keep source text plain. -/
def backtickChar : Char := Char.ofNat 96

/-- The backslash character. -/
def backslashChar : Char := '\\'

/-- JS `String.replace` with a global single-character pattern: every
occurrence of `c` becomes `rep`; replacement text is never rescanned. -/
def replaceAllChar (c : Char) (rep : List Char) : List Char → List Char
  | [] => []
  | ch :: rest => (if ch = c then rep else [ch]) ++ replaceAllChar c rep rest

/-- stringify.ts 65: `str.replace(/\\/g, '\\\\').replace(/`/g, '\\`')` —
first double every backslash, then escape every backtick. -/
def escapeForTemplate (s : String) : String :=
  String.mk (replaceAllChar backtickChar [backslashChar, backtickChar]
    (replaceAllChar backslashChar [backslashChar, backslashChar] s.data))

/-- Character-wise description of the escaping (used to state that the
backslashes inserted by the two-pass rewrite are never re-escaped). -/
def escapeChar (c : Char) : List Char :=
  if c = backslashChar then [backslashChar, backslashChar]
  else if c = backtickChar then [backslashChar, backtickChar]
  else [c]

/-- Node types relevant to the stringifier (`node.type` in postcss). -/
inductive NodeType
  | document
  | root
  | rule
  | decl
  | comment
  deriving DecidableEq

/-- The `'start' | 'end'` marker of a builder call; `finish` models the
source's `'end'`. -/
inductive BuilderType
  | start
  | finish
  deriving DecidableEq

/-- One call to the low-level sink: the emitted text, the node it is
attributed to (if any) and the optional boundary marker. -/
structure Fragment where
  text : String
  node : Option NodeType
  btype : Option BuilderType
  deriving DecidableEq

/-- stringify.ts 48–67: the text actually forwarded to the underlying sink
by the wrapped builder, as a function of the emitted text and the node the
emission is attributed to. -/
def wrappedBuilderText (str : String) (node : Option NodeType) : String :=
  match node with
  | none => str
  | some NodeType.root => str
  | some _ => escapeForTemplate str

/-- stringify.ts 160–175: tree-local raw-slot overrides.  `superRaw` is the
string the generic printer's own resolution (`super.raw(node, own, detect)`)
would produce; the wrapped class consults it only when none of the three
override guards fires.  Each guard requires the slot name to match and both
the generic raw value and the namespaced override to be truthy. -/
def LinariaStringifier.raw (raws : Raws) (own : String) (superRaw : String) : String :=
  if own == "before" && jsTruthy (raws.lookup "before")
      && jsTruthy (raws.lookup "linariaBefore") then
    (raws.lookup "linariaBefore").getD ""
  else if own == "after" && jsTruthy (raws.lookup "after")
      && jsTruthy (raws.lookup "linariaAfter") then
    (raws.lookup "linariaAfter").getD ""
  else if own == "between" && jsTruthy (raws.lookup "between")
      && jsTruthy (raws.lookup "linariaBetween") then
    (raws.lookup "linariaBetween").getD ""
  else superRaw

/-- stringify.ts 179: the derived override-slot name
`` `linaria${prop[0]?.toUpperCase()}${prop.slice(1)}` ``.  For the empty
property name, `prop[0]?.toUpperCase()` is `undefined`, which the template
literal renders as the text "undefined". -/
def linariaPropName (prop : String) : String :=
  "linaria" ++ (match prop.data with
    | [] => "undefined"
    | c :: cs => String.mk (Char.toUpper c :: cs))

/-- stringify.ts 178–185: if the derived override slot is an own property of
`node.raws` — presence, not truthiness — return its text form, else
delegate to `super.rawValue(node, prop)` (passed in as `superRawValue`). -/
def LinariaStringifier.rawValue (raws : Raws) (prop : String)
    (superRawValue : String) : String :=
  match raws.lookup (linariaPropName prop) with
  | some v => v
  | none => superRawValue

/-- stringify.ts 73: the test of `new RegExp('^' + placeholderText + ':\\d+$')`
against the comment text: the text is exactly the full marker, a colon, and
one or more digits. -/
def placeholderPatternTest (text : String) : Bool :=
  (placeholderText ++ ":").data.isPrefixOf text.data &&
    (let ds := text.data.drop (placeholderText ++ ":").data.length
     !ds.isEmpty && ds.all Char.isDigit)

/-- A comment node; only its `text` matters to the overridden handler. -/
structure CommentNode where
  text : String
  deriving DecidableEq

/-- stringify.ts 72–91.  `rootExprs` models
`node.root().raws.linariaTemplateExpressions`; `superComment` the fragments
`super.comment(node)` would emit (the generic printer reproduces the
original delimiters and text).  When the pattern matches,
`node.text.split(':')` is destructured for the piece after the first colon,
`Number` turns it into an index, and the expression is emitted alone —
attributed to the comment node, without delimiters — only when the table is
present and the entry truthy. -/
def LinariaStringifier.comment (node : CommentNode) (rootExprs : Option (List String))
    (superComment : List Fragment) : List Fragment :=
  if placeholderPatternTest node.text then
    let expressionIndexString := (jsSplit node.text ":")[1]?
    match rootExprs, jsNumberIndex? expressionIndexString with
    | some exprs, some i =>
      match exprs[i]? with
      | some expression =>
        if expression = "" then superComment
        else [⟨expression, some NodeType.comment, none⟩]
      | none => superComment
    | _, _ => superComment
  else superComment

/-- A declaration node: its property name, the `important` flag, and its
`raws` bag (`between`, `linariaBetween`, `important`, `linariaValue`, …). -/
structure DeclNode where
  prop : String
  important : Bool
  raws : Raws
  deriving DecidableEq

/-- stringify.ts 96–104: the property-name step of `decl`.  When the
property contains the full marker, `node.prop.split(placeholderText)` is
destructured for the piece after the first marker occurrence and the
property is replaced only when the table is present and the looked-up entry
truthy (`if (expression) prop = expression`). -/
def declProp (rootExprs : Option (List String)) (prop : String) : String :=
  if jsIncludes prop placeholderText then
    match rootExprs, jsNumberIndex? ((jsSplit prop placeholderText)[1]?) with
    | some exprs, some i =>
      match exprs[i]? with
      | some expression => if expression = "" then prop else expression
      | none => prop
    | _, _ => prop
  else prop

/-- stringify.ts 106–110: the value step of `decl` — the raw value resolved
through the overridden `rawValue`, run through `substitutePlaceholders`
when it contains the short marker. -/
def declValue (rootExprs : Option (List String)) (raws : Raws)
    (superRawValue : String) : String :=
  let value := LinariaStringifier.rawValue raws "value" superRawValue
  if jsIncludes value shortPlaceholderText then
    substitutePlaceholders value rootExprs
  else value

/-- stringify.ts 93–120.  `superRawBetween` is what
`super.raw(node, 'between', 'colon')` would return, `superRawValue` what
`super.rawValue(node, 'value')` would return.  The handler assembles
property + between + value, appends `node.raws.important || ' !important'`
when the node is flagged important, appends `;` when the `semicolon` flag
is set, and makes exactly one builder call attributed to the node. -/
def LinariaStringifier.decl (rootExprs : Option (List String)) (node : DeclNode)
    (semicolon : Bool) (superRawBetween : String) (superRawValue : String) :
    List Fragment :=
  let between := LinariaStringifier.raw node.raws "between" superRawBetween
  let prop := declProp rootExprs node.prop
  let value := declValue rootExprs node.raws superRawValue
  let s := prop ++ between ++ value
  let s := if node.important
    then s ++ jsOrDefault (node.raws.lookup "important") " !important" else s
  let s := if semicolon then s ++ ";" else s
  [⟨s, some NodeType.decl, none⟩]

/-- stringify.ts 123–129.  `numNodes` models `node.nodes.length`, `sourceCss`
models `node.source?.input.css` (the verbatim original input captured at
parse time, absent when there is no source), and `superDocument` the
fragments the generic document walk (`super.document(node)`) would emit.
The degenerate childless document emits one fragment with no node
attribution. -/
def LinariaStringifier.document (numNodes : Nat) (sourceCss : Option String)
    (superDocument : List Fragment) : List Fragment :=
  if numNodes = 0 then [⟨sourceCss.getD "", none, none⟩] else superDocument

/-- stringify.ts 139: `node.raws.linariaAfter ?? node.raws.after`. -/
def rootResolvedAfter (raws : Raws) : Option String :=
  jsNullish (raws.lookup "linariaAfter") (raws.lookup "after")

/-- stringify.ts 139–142: the trailing "after" emission of `root` — a single
fragment with no node attribution, emitted only when the resolved value is
truthy (`if (after) this.builder(after)`). -/
def rootAfterFragments (raws : Raws) : List Fragment :=
  match rootResolvedAfter raws with
  | some a => if a = "" then [] else [⟨a, none, none⟩]
  | none => []

/-- stringify.ts 132–145.  `bodyFragments` models the generic child walk
`this.body(node)`.  The handler emits `codeBefore` (default empty) as the
node's start boundary, the body, the resolved trailing "after" text, and
`codeAfter` (default empty) as the node's end boundary. -/
def LinariaStringifier.root (raws : Raws) (bodyFragments : List Fragment) :
    List Fragment :=
  [⟨(raws.lookup "codeBefore").getD "", some NodeType.root, some BuilderType.start⟩]
  ++ bodyFragments
  ++ rootAfterFragments raws
  ++ [⟨(raws.lookup "codeAfter").getD "", some NodeType.root, some BuilderType.finish⟩]

/-- Definition following the words of claim C2 / spec §4.2, for comparison
with the source translation `substituteToken`: per that description a token
is replaced exactly when it parses as the short marker followed by an index
— the marker is a prefix and the remainder is the index's digits — and the
index resolves to a present entry of the table. -/
def substituteTokenPerClaim (expressions : Option (List String)) (val : String) : String :=
  if shortPlaceholderText.data.isPrefixOf val.data then
    match digitsToNat? (val.data.drop shortPlaceholderText.data.length) with
    | some i =>
      match expressions with
      | some exprs =>
        match exprs[i]? with
        | some expression => expression
        | none => val
      | none => val
    | none => val
  else val

/-- Definition following the words of claim C2 for the whole routine: fast
path unchanged, split on single spaces, per-token rule of
`substituteTokenPerClaim`, rejoin with single spaces. -/
def substitutePlaceholdersPerClaim (stringWithPlaceholders : String)
    (expressions : Option (List String)) : String :=
  if jsIncludes stringWithPlaceholders shortPlaceholderText = false then
    stringWithPlaceholders
  else
    jsJoin " " ((jsSplit stringWithPlaceholders " ").map (substituteTokenPerClaim expressions))

theorem replaceAllChar_append (c : Char) (rep : List Char) (a b : List Char) :
    replaceAllChar c rep (a ++ b) = replaceAllChar c rep a ++ replaceAllChar c rep b := by
  induction a with
  | nil => rfl
  | cons x xs ih => simp [replaceAllChar, ih]

theorem escape_chars_join (l : List Char) :
    replaceAllChar backtickChar [backslashChar, backtickChar]
      (replaceAllChar backslashChar [backslashChar, backslashChar] l)
      = (l.map escapeChar).flatten := by
  induction l with
  | nil => rfl
  | cons c t ih =>
    have hbb : ¬ backslashChar = backtickChar := by decide
    have hbtb : ¬ backtickChar = backslashChar := by decide
    simp only [replaceAllChar, replaceAllChar_append, List.map, List.flatten, ih]
    by_cases h1 : c = backslashChar
    · simp [h1, escapeChar, replaceAllChar, hbb]
    · by_cases h2 : c = backtickChar
      · simp [h1, h2, escapeChar, replaceAllChar, hbtb]
      · simp [h1, h2, escapeChar, replaceAllChar]

/-- Claim C1: text emitted with no node or with a root node passes to the
underlying sink unchanged; for every other node the forwarded text is the
input with every backslash doubled and then every backtick escaped, which
amounts to the character-wise rewrite `escapeChar` — so the backslashes
inserted for backticks are never themselves re-escaped — and in particular
a backslash immediately followed by a backtick becomes double-backslash
followed by backslash-backtick. -/
theorem wrappedBuilder_escaping :
    (∀ s : String, wrappedBuilderText s none = s)
  ∧ (∀ s : String, wrappedBuilderText s (some NodeType.root) = s)
  ∧ (∀ (s : String) (n : NodeType), n ≠ NodeType.root →
      wrappedBuilderText s (some n) = escapeForTemplate s)
  ∧ (∀ s : String, (escapeForTemplate s).data = (s.data.map escapeChar).flatten)
  ∧ escapeForTemplate "\\`" = "\\\\\\`" := by
  refine ⟨fun s => rfl, fun s => rfl, ?_, ?_, by decide⟩
  · intro s n h
    cases n with
    | root => exact absurd rfl h
    | document => rfl
    | rule => rfl
    | decl => rfl
    | comment => rfl
  · intro s
    exact escape_chars_join s.data

theorem wrappedBuilder_escaping_witness :
    NodeType.decl ≠ NodeType.root
  ∧ wrappedBuilderText "a\\`b" (some NodeType.decl) = escapeForTemplate "a\\`b"
  ∧ escapeForTemplate "a\\`b" = "a\\\\\\`b" :=
  ⟨by decide, wrappedBuilder_escaping.2.2.1 "a\\`b" NodeType.decl (by decide), by decide⟩

/-- Claim C7: the raw-value resolution derives the override-slot name by
prefixing `linaria` and upper-casing the property name's first character
(`value` ↦ `linariaValue`, `selector` ↦ `linariaSelector`), and returns the
slot's text form whenever the slot is present on the node's raws — presence,
not truthiness, gates this path, so an empty-string value is still returned
— delegating to the generic printer's computation only when the slot is
absent. -/
theorem rawValue_resolution :
    (∀ (raws : Raws) (prop sup v : String),
      raws.lookup (linariaPropName prop) = some v →
      LinariaStringifier.rawValue raws prop sup = v)
  ∧ (∀ (raws : Raws) (prop sup : String),
      raws.lookup (linariaPropName prop) = none →
      LinariaStringifier.rawValue raws prop sup = sup)
  ∧ linariaPropName "value" = "linariaValue"
  ∧ linariaPropName "selector" = "linariaSelector"
  ∧ (∀ (c : Char) (cs : List Char),
      linariaPropName (String.mk (c :: cs)) = "linaria" ++ String.mk (Char.toUpper c :: cs))
  ∧ LinariaStringifier.rawValue [("linariaValue", "")] "value" "SUP" = "" := by
  refine ⟨?_, ?_, by decide, by decide, fun c cs => rfl, by decide⟩
  · intro raws prop sup v h
    simp [LinariaStringifier.rawValue, h]
  · intro raws prop sup h
    simp [LinariaStringifier.rawValue, h]

theorem rawValue_resolution_witness :
    LinariaStringifier.rawValue [("linariaSelector", ".a:hover")] "selector" "SUP" = ".a:hover"
  ∧ LinariaStringifier.rawValue [("between", ": ")] "value" "red" = "red" :=
  ⟨rawValue_resolution.1 [("linariaSelector", ".a:hover")] "selector" "SUP" ".a:hover"
      (by decide),
   rawValue_resolution.2.1 [("between", ": ")] "value" "red" (by decide)⟩

/-- Claim C9: a document node with zero children emits exactly the verbatim
original input text captured at parse time — an empty fragment when that
text is unavailable, including the case where the captured text is itself
empty — and a document with at least one child delegates entirely to the
generic document-printing walk. -/
theorem document_degenerate :
    (∀ (css : String) (sup : List Fragment),
      LinariaStringifier.document 0 (some css) sup = [⟨css, none, none⟩])
  ∧ (∀ sup : List Fragment,
      LinariaStringifier.document 0 none sup = [⟨"", none, none⟩])
  ∧ (∀ (n : Nat) (css : Option String) (sup : List Fragment), n ≠ 0 →
      LinariaStringifier.document n css sup = sup)
  ∧ LinariaStringifier.document 0 (some "") [] = [⟨"", none, none⟩] := by
  refine ⟨fun css sup => rfl, fun sup => rfl, ?_, rfl⟩
  intro n css sup h
  simp [LinariaStringifier.document, h]

theorem document_degenerate_witness :
    LinariaStringifier.document 2 (some "unused")
      [⟨"a", some NodeType.root, none⟩] = [⟨"a", some NodeType.root, none⟩] :=
  document_degenerate.2.2.1 2 (some "unused") [⟨"a", some NodeType.root, none⟩] (by decide)

theorem string_append_empty (s : String) : s ++ "" = s := by
  cases s with
  | mk data => exact congrArg String.mk (List.append_nil data)

/-- Claim C6, counterexample: with generic raw `before = " "` (non-empty)
and override `linariaBefore = ""` — the override slot is present — the code
delegates to the generic resolution instead of returning the present
override value, because the guard tests the override's truthiness, not its
presence. -/
theorem raw_present_empty_override_cex :
    LinariaStringifier.raw [("before", " "), ("linariaBefore", "")] "before" "SUP" = "SUP"
  ∧ ("SUP" : String) ≠ "" := ⟨rfl, by decide⟩

/-- Claim C6 (amended): the raw-slot resolution returns the tree-local
override exactly when the slot is `before`, `after` or `between`, the
generic raw value for the slot is non-empty, and the namespaced override is
present and non-empty; in every other case — including a non-empty override
with an empty or absent generic value, and a present-but-empty override —
it delegates to the generic printer's resolution. -/
theorem raw_override_resolution :
    (∀ (raws : Raws) (sup b v : String),
      raws.lookup "before" = some b → b ≠ "" →
      raws.lookup "linariaBefore" = some v → v ≠ "" →
      LinariaStringifier.raw raws "before" sup = v)
  ∧ (∀ (raws : Raws) (sup b v : String),
      raws.lookup "after" = some b → b ≠ "" →
      raws.lookup "linariaAfter" = some v → v ≠ "" →
      LinariaStringifier.raw raws "after" sup = v)
  ∧ (∀ (raws : Raws) (sup b v : String),
      raws.lookup "between" = some b → b ≠ "" →
      raws.lookup "linariaBetween" = some v → v ≠ "" →
      LinariaStringifier.raw raws "between" sup = v)
  ∧ (∀ (raws : Raws) (own sup : String),
      (own == "before" && jsTruthy (raws.lookup "before")
        && jsTruthy (raws.lookup "linariaBefore")) = false →
      (own == "after" && jsTruthy (raws.lookup "after")
        && jsTruthy (raws.lookup "linariaAfter")) = false →
      (own == "between" && jsTruthy (raws.lookup "between")
        && jsTruthy (raws.lookup "linariaBetween")) = false →
      LinariaStringifier.raw raws own sup = sup)
  ∧ LinariaStringifier.raw [("before", " "), ("linariaBefore", "\n  ")] "before" "SUP" = "\n  "
  ∧ LinariaStringifier.raw [("linariaBefore", "\n  ")] "before" "SUP" = "SUP" := by
  refine ⟨?_, ?_, ?_, ?_, by decide, by decide⟩
  · intro raws sup b v h1 h2 h3 h4
    simp [LinariaStringifier.raw, h1, h3, jsTruthy, h2, h4]
  · intro raws sup b v h1 h2 h3 h4
    simp [LinariaStringifier.raw, h1, h3, jsTruthy, h2, h4]
  · intro raws sup b v h1 h2 h3 h4
    simp [LinariaStringifier.raw, h1, h3, jsTruthy, h2, h4]
  · intro raws own sup h1 h2 h3
    simp [LinariaStringifier.raw, h1, h2, h3]

theorem raw_override_resolution_witness :
    LinariaStringifier.raw [("after", "\n"), ("linariaAfter", "\n  ")] "after" "SUP" = "\n  "
  ∧ LinariaStringifier.raw [("before", " "), ("linariaBefore", "x")] "left" "SUP" = "SUP" :=
  ⟨raw_override_resolution.2.1 [("after", "\n"), ("linariaAfter", "\n  ")] "SUP" "\n" "\n  "
      (by decide) (by decide) (by decide) (by decide),
   raw_override_resolution.2.2.2.1 [("before", " "), ("linariaBefore", "x")] "left" "SUP"
      (by decide) (by decide) (by decide)⟩

/-- Claim C8: the root handler emits, in order, the node's `codeBefore` raw
value (empty when absent) as a start-boundary fragment attributed to the
root, the generic body walk's fragments, the trailing "after" fragment
computed by preferring the `linariaAfter` override over the generic `after`
raw whenever the override is present (the fragment is emitted when the
resolved text is non-empty, with no node attribution), and finally the
node's `codeAfter` raw value (empty when absent) as an end-boundary
fragment attributed to the root. -/
theorem root_emission :
    (∀ (raws : Raws) (body : List Fragment),
      LinariaStringifier.root raws body =
        [⟨(raws.lookup "codeBefore").getD "", some NodeType.root, some BuilderType.start⟩]
        ++ body
        ++ rootAfterFragments raws
        ++ [⟨(raws.lookup "codeAfter").getD "", some NodeType.root, some BuilderType.finish⟩])
  ∧ (∀ (raws : Raws) (a : String),
      raws.lookup "linariaAfter" = some a → rootResolvedAfter raws = some a)
  ∧ (∀ raws : Raws,
      raws.lookup "linariaAfter" = none → rootResolvedAfter raws = raws.lookup "after")
  ∧ LinariaStringifier.root
      [("codeBefore", "const css = css`"), ("after", "\n"), ("linariaAfter", "\n  "),
        ("codeAfter", "`;")]
      [⟨".a \x7b\x7d", some NodeType.rule, none⟩] =
      [⟨"const css = css`", some NodeType.root, some BuilderType.start⟩,
        ⟨".a \x7b\x7d", some NodeType.rule, none⟩,
        ⟨"\n  ", none, none⟩,
        ⟨"`;", some NodeType.root, some BuilderType.finish⟩] := by
  refine ⟨fun raws body => rfl, ?_, ?_, by decide⟩
  · intro raws a h
    simp [rootResolvedAfter, jsNullish, h]
  · intro raws h
    cases hb : raws.lookup "after" <;> simp [rootResolvedAfter, jsNullish, h, hb]

theorem root_emission_witness :
    rootResolvedAfter [("linariaAfter", ""), ("after", "\n")] = some ""
  ∧ rootResolvedAfter [("after", "\n")] = some "\n" :=
  ⟨root_emission.2.1 [("linariaAfter", ""), ("after", "\n")] "" (by decide),
   (root_emission.2.2.1 [("after", "\n")] (by decide)).trans (by decide)⟩

/-- Claim C3, counterexample: a declaration flagged important whose captured
raw `important` text is present but empty.  The claim predicts that the
present captured text (the empty string) is appended, i.e. the output
"color: red;"; the code appends the default " !important" because the
`node.raws.important || ' !important'` fallback tests truthiness, not
presence. -/
theorem decl_important_present_empty_cex :
    LinariaStringifier.decl none ⟨"color", true, [("between", ": "), ("important", "")]⟩
      true ": " "red"
      = [⟨"color: red !important;", some NodeType.decl, none⟩]
  ∧ ("color: red !important;" : String) ≠ "color: red;" := ⟨rfl, by decide⟩

/-- Claim C3 (amended): the declaration handler emits, as a single fragment
attributed to the declaration node, the concatenation of the
placeholder-substituted property name, the resolved `between` raw, and the
placeholder-substituted raw value; if the node is flagged important it
appends the captured raw `important` text when that text is present and
non-empty, and the default " !important" otherwise (also when the captured
text is present but empty); and it appends a terminating semicolon exactly
when the terminator flag is set. -/
theorem decl_assembly :
    (∀ (es : Option (List String)) (node : DeclNode) (semi : Bool) (sb sv : String),
      LinariaStringifier.decl es node semi sb sv =
        [⟨declProp es node.prop ++ LinariaStringifier.raw node.raws "between" sb
            ++ declValue es node.raws sv
            ++ (if node.important
                then jsOrDefault (node.raws.lookup "important") " !important" else "")
            ++ (if semi then ";" else ""),
          some NodeType.decl, none⟩])
  ∧ (∀ (s d : String), s ≠ "" → jsOrDefault (some s) d = s)
  ∧ (∀ d : String, jsOrDefault (some "") d = d)
  ∧ (∀ d : String, jsOrDefault none d = d) := by
  refine ⟨?_, ?_, fun d => rfl, fun d => rfl⟩
  · intro es node semi sb sv
    cases hi : node.important <;> cases hs : semi <;>
      simp [LinariaStringifier.decl, hi, hs, string_append_empty]
  · intro s d h
    simp [jsOrDefault, h]

theorem decl_assembly_witness :
    jsOrDefault (some " !IMPORTANT") " !important" = " !IMPORTANT"
  ∧ LinariaStringifier.decl none ⟨"color", true, [("important", " !IMPORTANT")]⟩
      true ": " "red" = [⟨"color: red !IMPORTANT;", some NodeType.decl, none⟩] :=
  ⟨decl_assembly.2.1 " !IMPORTANT" " !important" (by decide),
   (decl_assembly.1 none ⟨"color", true, [("important", " !IMPORTANT")]⟩ true ": " "red").trans
      (by decide)⟩

/-- Claim C2, counterexample: the routine's output differs from the claim's
description at the string "xpcss0 pcss1" with expression table
["${x}", ""].  Per the claim the token "xpcss0" does not parse as the short
marker followed by an index (the marker is not a prefix) and is kept
verbatim, while "pcss1" resolves to the present entry 1 and is replaced by
its (empty) text, giving "xpcss0 "; the code replaces "xpcss0" (the split
takes whatever follows the first marker occurrence, here "0") and keeps
"pcss1" (the looked-up entry is falsy), giving "${x} pcss1". -/
theorem substitutePlaceholders_per_claim_cex :
    substitutePlaceholders "xpcss0 pcss1" (some ["${x}", ""]) = "${x} pcss1"
  ∧ substitutePlaceholdersPerClaim "xpcss0 pcss1" (some ["${x}", ""]) = "xpcss0 "
  ∧ substitutePlaceholders "xpcss0 pcss1" (some ["${x}", ""])
      ≠ substitutePlaceholdersPerClaim "xpcss0 pcss1" (some ["${x}", ""]) :=
  ⟨rfl, rfl, by decide⟩

set_option maxRecDepth 100000 in
/-- Claim C2 (amended): the shared substitution routine returns the string
unchanged when it contains no short-placeholder marker; otherwise it splits
on single spaces, rewrites each token and rejoins with single spaces.  A
token is replaced exactly when splitting it on the short marker yields a
second piece — the text after the first marker occurrence, regardless of
what precedes the marker — that JS `Number`-coerces (the empty piece
counting as 0, the whole string numeric grammar applying: decimal,
fraction, exponent, hex/octal/binary, sign, white space, binary64
rounding) to a non-negative integer index of a present non-empty
expression-table entry, in which case the whole token becomes that entry's
text; every other token is kept verbatim.  In particular "a pcss0 b" with
table ["${x}"] prints as "a ${x} b", and the coerced forms substitute too:
"pcss0e1" and "pcss0." hit index 0, "pcss0x1" and "pcss1.0" hit index 1,
"pcss-0" hits index 0, "pcss1e-400" underflows to index 0, while
"pcss0.5" and "pcssInfinity" are kept verbatim. -/
theorem substitutePlaceholders_characterization :
    (∀ (s : String) (es : Option (List String)),
      jsIncludes s shortPlaceholderText = false → substitutePlaceholders s es = s)
  ∧ (∀ (s : String) (es : Option (List String)),
      jsIncludes s shortPlaceholderText = true →
      substitutePlaceholders s es =
        jsJoin " " ((jsSplit s " ").map (substituteToken es)))
  ∧ (∀ (es : List String) (val ds : String) (i : Nat) (e : String),
      (jsSplit val shortPlaceholderText)[1]? = some ds →
      jsNumberIndex? (some ds) = some i →
      es[i]? = some e → e ≠ "" →
      substituteToken (some es) val = e)
  ∧ (∀ (es : Option (List String)) (val : String),
      (¬ ∃ (exprs : List String) (i : Nat) (e : String),
        es = some exprs ∧
        jsNumberIndex? ((jsSplit val shortPlaceholderText)[1]?) = some i ∧
        exprs[i]? = some e ∧ e ≠ "") →
      substituteToken es val = val)
  ∧ substitutePlaceholders "a pcss0 b" (some ["${x}"]) = "a ${x} b"
  ∧ substitutePlaceholders "a pcss0e1 b" (some ["x"]) = "a x b"
  ∧ substituteToken (some ["a", "b"]) "pcss0x1" = "b"
  ∧ substituteToken (some ["z"]) "pcss0." = "z"
  ∧ substituteToken (some ["a", "b"]) "pcss1.0" = "b"
  ∧ substituteToken (some ["z"]) "pcss-0" = "z"
  ∧ substituteToken (some ["z"]) "pcss1e-400" = "z"
  ∧ substituteToken (some ["z"]) "pcss0.5" = "pcss0.5"
  ∧ substituteToken (some ["z"]) "pcssInfinity" = "pcssInfinity" := by
  refine ⟨?_, ?_, ?_, ?_, rfl, by decide, by decide, by decide, by decide, by decide,
    by decide, by decide, by decide⟩
  · intro s es h
    simp [substitutePlaceholders, h]
  · intro s es h
    simp [substitutePlaceholders, h]
  · intro es val ds i e h1 h2 h3 h4
    simp [substituteToken, h1, h2, h3, h4]
  · intro es val h
    cases es with
    | none => simp [substituteToken]
    | some exprs =>
      cases hI : jsNumberIndex? ((jsSplit val shortPlaceholderText)[1]?) with
      | none => simp [substituteToken, hI]
      | some i =>
        cases hg : exprs[i]? with
        | none => simp [substituteToken, hI, hg]
        | some e =>
          by_cases he : e = ""
          · simp [substituteToken, hI, hg, he]
          · exact absurd ⟨exprs, i, e, rfl, hI, hg, he⟩ h

theorem substitutePlaceholders_characterization_witness :
    substituteToken (some ["${x}"]) "pcss0" = "${x}"
  ∧ substituteToken (some ["${x}"]) "red" = "red"
  ∧ substitutePlaceholders "margin: 0" none = "margin: 0" :=
  ⟨substitutePlaceholders_characterization.2.2.1 ["${x}"] "pcss0" "0" 0 "${x}"
      (by decide) (by decide) (by decide) (by decide),
   substitutePlaceholders_characterization.2.2.2.1 (some ["${x}"]) "red"
      (by simp [shortPlaceholderText]; decide),
   substitutePlaceholders_characterization.1 "margin: 0" none (by decide)⟩

/-- Claim C4, counterexample: the single space-separated token "ypcss0", in
which the short marker plus an index appears only as a proper substring
(the extra leading character "y" precedes the marker), is substituted by
the routine — the whole token is replaced by the expression text — rather
than kept verbatim as the claim states. -/
theorem substituteToken_substring_cex :
    substitutePlaceholders "ypcss0" (some ["${y}"]) = "${y}"
  ∧ ("${y}" : String) ≠ "ypcss0" := ⟨rfl, by decide⟩

/-- Claim C4 (amended): substitution is not restricted to tokens equal to
the short marker followed by an index.  For every space-separated token,
substitution occurs whenever splitting the token on the short marker yields
a second piece coercing to an index of a present non-empty entry — so a
token in which the marker plus an index appears with extra leading
characters before the marker is substituted (the entire token is replaced
by the expression text), not kept verbatim. -/
theorem substituteToken_substring_match :
    (∀ (es : List String) (val ds : String) (i : Nat) (e : String),
      val ≠ shortPlaceholderText ++ ds →
      (jsSplit val shortPlaceholderText)[1]? = some ds →
      jsNumberIndex? (some ds) = some i →
      es[i]? = some e → e ≠ "" →
      substituteToken (some es) val = e)
  ∧ substituteToken (some ["a", "b"]) "qpcss1" = "b"
  ∧ substitutePlaceholders "a xpcss0 b" (some ["${z}"]) = "a ${z} b" := by
  refine ⟨?_, rfl, rfl⟩
  intro es val ds i e _ h1 h2 h3 h4
  simp [substituteToken, h1, h2, h3, h4]

theorem substituteToken_substring_match_witness :
    substituteToken (some ["${w}"]) "wpcss0" = "${w}" :=
  substituteToken_substring_match.1 ["${w}"] "wpcss0" "0" 0 "${w}"
    (by decide) (by decide) (by decide) (by decide) (by decide)

/-- Claim C5, counterexample: a comment whose text matches the full pattern
and whose index resolves to a present entry that is the empty string.  The
claim predicts the expression text (the empty string) is emitted verbatim
in place of the whole comment; the code tests the looked-up entry's
truthiness and falls through to the generic comment printing, reproducing
the original delimiters and text. -/
theorem comment_present_empty_cex :
    LinariaStringifier.comment ⟨"pcss-lin:0"⟩ (some [""])
      [⟨"/* pcss-lin:0 */", some NodeType.comment, none⟩]
      = [⟨"/* pcss-lin:0 */", some NodeType.comment, none⟩]
  ∧ ([⟨"/* pcss-lin:0 */", some NodeType.comment, none⟩] : List Fragment)
      ≠ [⟨"", some NodeType.comment, none⟩] := ⟨rfl, by decide⟩

/-- Claim C5 (amended): the comment handler emits the resolved expression
text verbatim, with no comment delimiters, exactly when the comment's text
matches the full marker, a colon, and digits denoting an index that
resolves to a present non-empty entry of the root's expression table; in
every other case — no match, missing table, non-numeric or out-of-range
index (e.g. "pcss-lin:5" against a 2-entry table), or an empty-string entry
— it falls through to the generic comment printing, reproducing the
original delimiters and text unchanged. -/
theorem comment_substitution :
    (∀ (node : CommentNode) (es : List String) (sup : List Fragment) (i : Nat) (e : String),
      placeholderPatternTest node.text = true →
      jsNumberIndex? ((jsSplit node.text ":")[1]?) = some i →
      es[i]? = some e → e ≠ "" →
      LinariaStringifier.comment node (some es) sup = [⟨e, some NodeType.comment, none⟩])
  ∧ (∀ (node : CommentNode) (es : Option (List String)) (sup : List Fragment),
      (¬ ∃ (exprs : List String) (i : Nat) (e : String),
        placeholderPatternTest node.text = true ∧
        es = some exprs ∧
        jsNumberIndex? ((jsSplit node.text ":")[1]?) = some i ∧
        exprs[i]? = some e ∧ e ≠ "") →
      LinariaStringifier.comment node es sup = sup)
  ∧ LinariaStringifier.comment ⟨"pcss-lin:1"⟩ (some ["color", "0 123px"]) []
      = [⟨"0 123px", some NodeType.comment, none⟩]
  ∧ LinariaStringifier.comment ⟨"pcss-lin:5"⟩ (some ["a", "b"])
      [⟨"/* pcss-lin:5 */", some NodeType.comment, none⟩]
      = [⟨"/* pcss-lin:5 */", some NodeType.comment, none⟩] := by
  refine ⟨?_, ?_, rfl, rfl⟩
  · intro node es sup i e h1 h2 h3 h4
    simp [LinariaStringifier.comment, h1, h2, h3, h4]
  · intro node es sup h
    by_cases hp : placeholderPatternTest node.text
    · cases es with
      | none => simp [LinariaStringifier.comment, hp]
      | some exprs =>
        cases hI : jsNumberIndex? ((jsSplit node.text ":")[1]?) with
        | none => simp [LinariaStringifier.comment, hp, hI]
        | some i =>
          cases hg : exprs[i]? with
          | none => simp [LinariaStringifier.comment, hp, hI, hg]
          | some e =>
            by_cases he : e = ""
            · simp [LinariaStringifier.comment, hp, hI, hg, he]
            · exact absurd ⟨exprs, i, e, hp, rfl, hI, hg, he⟩ h
    · simp [LinariaStringifier.comment, hp]

theorem comment_substitution_witness :
    LinariaStringifier.comment ⟨"pcss-lin:0"⟩ (some ["blue"]) []
      = [⟨"blue", some NodeType.comment, none⟩]
  ∧ LinariaStringifier.comment ⟨"not a placeholder"⟩ (some ["blue"])
      [⟨"/* not a placeholder */", some NodeType.comment, none⟩]
      = [⟨"/* not a placeholder */", some NodeType.comment, none⟩] :=
  ⟨comment_substitution.1 ⟨"pcss-lin:0"⟩ ["blue"] [] 0 "blue"
      (by decide) (by decide) (by decide) (by decide),
   comment_substitution.2.1 ⟨"not a placeholder"⟩ (some ["blue"])
      [⟨"/* not a placeholder */", some NodeType.comment, none⟩]
      (by
        intro hcon
        rcases hcon with ⟨exprs, i, e, hp, hrest⟩
        exact absurd hp (by decide))⟩

/-- Claim C10: when a placeholder's index is valid but the expression-table
entry it resolves to is the empty string, substitution does not occur and
the original text is preserved: the shared substitution routine keeps the
token, the comment handler falls through to the generic printing, and the
declaration property step keeps the original property name — each path
gates replacement on the truthiness of the looked-up expression, not on the
presence of the entry. -/
theorem empty_expression_truthiness_gating :
    (∀ (es : List String) (val : String) (i : Nat),
      jsNumberIndex? ((jsSplit val shortPlaceholderText)[1]?) = some i →
      es[i]? = some "" →
      substituteToken (some es) val = val)
  ∧ (∀ (node : CommentNode) (es : List String) (sup : List Fragment) (i : Nat),
      jsNumberIndex? ((jsSplit node.text ":")[1]?) = some i →
      es[i]? = some "" →
      LinariaStringifier.comment node (some es) sup = sup)
  ∧ (∀ (es : List String) (prop : String) (i : Nat),
      jsNumberIndex? ((jsSplit prop placeholderText)[1]?) = some i →
      es[i]? = some "" →
      declProp (some es) prop = prop) := by
  refine ⟨?_, ?_, ?_⟩
  · intro es val i h1 h2
    simp [substituteToken, h1, h2]
  · intro node es sup i h1 h2
    by_cases hp : placeholderPatternTest node.text
    · simp [LinariaStringifier.comment, hp, h1, h2]
    · simp [LinariaStringifier.comment, hp]
  · intro es prop i h1 h2
    by_cases hin : jsIncludes prop placeholderText
    · simp [declProp, hin, h1, h2]
    · simp [declProp, hin]

theorem empty_expression_truthiness_gating_witness :
    substituteToken (some [""]) "pcss0" = "pcss0"
  ∧ LinariaStringifier.comment ⟨"pcss-lin:0"⟩ (some [""])
      [⟨"/* c */", some NodeType.comment, none⟩]
      = [⟨"/* c */", some NodeType.comment, none⟩]
  ∧ declProp (some [""]) "pcss-lin0" = "pcss-lin0" :=
  ⟨empty_expression_truthiness_gating.1 [""] "pcss0" 0 (by decide) (by decide),
   empty_expression_truthiness_gating.2.1 ⟨"pcss-lin:0"⟩ [""]
      [⟨"/* c */", some NodeType.comment, none⟩] 0 (by decide) (by decide),
   empty_expression_truthiness_gating.2.2 [""] "pcss-lin0" 0 (by decide) (by decide)⟩

end PostcssLinaria
